import Mathlib

/-!
A verification development for the `mater` Django application (material
request / stock deduction workflow).  The definitions below are shallow
embeddings of the source modules:

* `src/mater/models.py`   — data model, request numbering, save hook
* `src/mater/signals.py`  — stock deduction and audit-log signal handlers
* `src/mater/admin.py`    — form validation, inline permissions, queryset scoping

Database rows are lists of structures; machine integers of the source are
`Int` (Django `IntegerField`), identifiers are `Nat`, and fallible paths
return the reached state together with an optional raised error (a Django
signal handler that raises mid-loop leaves the already-saved rows behind,
which the pair return type records faithfully).
-/

/-- `MaterialRequestModel.APPROVAL_STATUS_CHOICES` from `src/mater/models.py`:
`approving` (initial), `nopass`, `passed`. -/
inductive ApprovalStatus where
  | approving
  | nopass
  | passed
deriving DecidableEq, Repr

/-- One row of `DepartmentMaterialStock` (`src/mater/models.py`): a
(department, material) pair — unique together — with the stored quantity and
the safety-warning threshold, both Django `IntegerField`s. -/
structure DepartmentMaterialStock where
  department : Nat
  material : Nat
  quantity : Int
  quantity_safety : Int
deriving DecidableEq, Repr

/-- The (department, material) key of a stock row, unique by the model's
`unique_together` constraint. -/
def stockKey (s : DepartmentMaterialStock) : Nat × Nat :=
  (s.department, s.material)

/-- One row of `MaterialRequestItem` (`src/mater/models.py`).  Its `material`
foreign key references a `DepartmentMaterialStock` row, which we flatten into
that row's (department, material) key; `item.material.material` of the source
is `material_material` here. -/
structure MaterialRequestItem where
  material_department : Nat
  material_material : Nat
  quantity : Int
deriving DecidableEq, Repr

/-- The in-memory state of a `MaterialRequestModel` instance that is relevant
to the `update_stock` signal handler: the requesting department, the status
being saved, and the `__original_approval_status` snapshot taken by
`__init__` (for an instance loaded from the database this snapshot equals the
persisted status). -/
structure MaterialRequestModel where
  department : Nat
  approval_status : ApprovalStatus
  original_approval_status : ApprovalStatus
deriving DecidableEq, Repr

/-- Errors raised by the stock-deduction signal handler.
`insufficient m` is the `ValueError` naming material `m`'s code
(`无法扣减库存` in the source); `doesNotExist d m` is the unhandled
`DepartmentMaterialStock.DoesNotExist` of the `objects.get` lookup. -/
inductive StockError where
  | insufficient (material : Nat)
  | doesNotExist (department : Nat) (material : Nat)
deriving DecidableEq, Repr

/-- `DepartmentMaterialStock.objects.get(department=d, material=m)`: the row
with that key, when present. -/
def findStock (stocks : List DepartmentMaterialStock) (d m : Nat) :
    Option DepartmentMaterialStock :=
  stocks.find? fun s => s.department == d && s.material == m

/-- `department_stock.save()`: persist the (mutated) row `s`, replacing the
row that carries its (department, material) key. -/
def saveStock (stocks : List DepartmentMaterialStock)
    (s : DepartmentMaterialStock) : List DepartmentMaterialStock :=
  stocks.map fun e =>
    if e.department == s.department && e.material == s.material then s else e

/-- The `for item in instance.materialrequestitem_set.all()` loop of
`update_stock` (`src/mater/signals.py`): for each item re-fetch the stock row
keyed by the *request's* department and the item's material, raise when the
requested quantity exceeds the stored quantity, otherwise decrement and save.
A raise aborts the loop, keeping the rows already saved. -/
def deductItems (dept : Nat) (items : List MaterialRequestItem)
    (stocks : List DepartmentMaterialStock) :
    List DepartmentMaterialStock × Option StockError :=
  match items with
  | [] => (stocks, none)
  | item :: rest =>
    match findStock stocks dept item.material_material with
    | none => (stocks, some (.doesNotExist dept item.material_material))
    | some department_stock =>
      if department_stock.quantity < item.quantity then
        (stocks, some (.insufficient item.material_material))
      else
        deductItems dept rest
          (saveStock stocks
            { department_stock with
                quantity := department_stock.quantity - item.quantity })

/-- The `post_save` signal handler `update_stock` (`src/mater/signals.py`):
when the saved status is `passed` and the save is a creation or the
`__original_approval_status` snapshot differs from `passed`, deduct every
item's quantity from the stock of the request's department. -/
def update_stock (inst : MaterialRequestModel) (created : Bool)
    (items : List MaterialRequestItem)
    (stocks : List DepartmentMaterialStock) :
    List DepartmentMaterialStock × Option StockError :=
  if inst.approval_status = .passed then
    if created || inst.original_approval_status ≠ .passed then
      deductItems inst.department items stocks
    else
      (stocks, none)
  else
    (stocks, none)

/-- Sum of the quantities of the request items referencing the stock row
`e` — an item references `e` when its flattened foreign key equals `e`'s
(department, material) key. -/
def sumReferencing (e : DepartmentMaterialStock)
    (items : List MaterialRequestItem) : Int :=
  ((items.filter fun it =>
      it.material_department == e.department &&
      it.material_material == e.material).map (·.quantity)).sum

/-- Sum of the quantities of the items whose material identifier is `m`;
these are the items whose deduction the loop applies to the (dept, `m`)
stock row. -/
def sumQty (m : Nat) (items : List MaterialRequestItem) : Int :=
  ((items.filter fun it => it.material_material == m).map (·.quantity)).sum

lemma findStock_eq_some {stocks : List DepartmentMaterialStock} {d m : Nat}
    {s : DepartmentMaterialStock} (h : findStock stocks d m = some s) :
    s.department = d ∧ s.material = m := by
  have h2 := List.find?_some h
  simp only [Bool.and_eq_true, beq_iff_eq] at h2
  exact h2

lemma findStock_saveStock (stocks : List DepartmentMaterialStock)
    (s : DepartmentMaterialStock) (d m : Nat) :
    findStock (saveStock stocks s) d m =
      (findStock stocks d m).map fun e =>
        if e.department == s.department && e.material == s.material then s
        else e := by
  unfold findStock saveStock
  rw [List.find?_map]
  congr 1
  congr 1
  funext e
  simp only [Function.comp_apply]
  by_cases hc : e.department = s.department ∧ e.material = s.material
  · simp [hc.1, hc.2]
  · have hfe : (e.department == s.department && e.material == s.material) = false := by
      simpa using hc
    simp [hfe]

lemma findStock_saveStock_ne (stocks : List DepartmentMaterialStock)
    (s : DepartmentMaterialStock) (d m : Nat)
    (h : ¬ (d = s.department ∧ m = s.material)) :
    findStock (saveStock stocks s) d m = findStock stocks d m := by
  rw [findStock_saveStock]
  rcases hres : findStock stocks d m with _ | a
  · rfl
  · have ha := findStock_eq_some hres
    have hfa : (a.department == s.department && a.material == s.material) = false := by
      simp only [Bool.and_eq_false_iff, beq_eq_false_iff_ne, ne_eq]
      rcases Decidable.not_and_iff_or_not.mp h with h1 | h1
      · exact Or.inl fun hc => h1 (ha.1 ▸ hc)
      · exact Or.inr fun hc => h1 (ha.2 ▸ hc)
    have hneg : ¬ ((a.department == s.department && a.material == s.material) = true) := by
      simp [hfa]
    simp only [Option.map_some', if_neg hneg]

lemma findStock_saveStock_self (stocks : List DepartmentMaterialStock)
    (s : DepartmentMaterialStock) :
    findStock (saveStock stocks s) s.department s.material =
      (findStock stocks s.department s.material).map fun _ => s := by
  rw [findStock_saveStock]
  rcases hres : findStock stocks s.department s.material with _ | a
  · rfl
  · have ha := findStock_eq_some hres
    have hpos : (a.department == s.department && a.material == s.material) = true := by
      simp [ha.1, ha.2]
    simp only [Option.map_some', if_pos hpos]

lemma findStock_of_mem {stocks : List DepartmentMaterialStock}
    (hkeys : (stocks.map stockKey).Nodup) {e : DepartmentMaterialStock}
    (he : e ∈ stocks) : findStock stocks e.department e.material = some e := by
  induction stocks with
  | nil => cases he
  | cons a rest ih =>
    rcases List.mem_cons.mp he with rfl | hmem
    · simp [findStock]
    · have hkey : stockKey a ≠ stockKey e := by
        intro hc
        have : stockKey e ∈ rest.map stockKey := List.mem_map_of_mem _ hmem
        exact (List.nodup_cons.mp (by simpa using hkeys)).1 (hc ▸ this)
      have hpa : (a.department == e.department && a.material == e.material) = false := by
        simp only [Bool.and_eq_false_iff, beq_eq_false_iff_ne]
        by_contra hc
        push_neg at hc
        exact hkey (by simp [stockKey, hc.1, hc.2])
      simp only [findStock, List.find?_cons, hpa]
      exact ih (List.nodup_cons.mp (by simpa using hkeys)).2 hmem

lemma deductItems_findStock (dept : Nat) (items : List MaterialRequestItem) :
    ∀ (stocks : List DepartmentMaterialStock),
      (deductItems dept items stocks).2 = none →
      ∀ d m : Nat,
        (findStock (deductItems dept items stocks).1 d m).map (·.quantity)
          = (findStock stocks d m).map fun e =>
              e.quantity - (if d = dept then sumQty m items else 0) := by
  induction items with
  | nil =>
    intro stocks _ d m
    cases hres : findStock stocks d m <;> simp [deductItems, sumQty, hres]
  | cons item rest ih =>
    intro stocks hok d m
    rcases hfind : findStock stocks dept item.material_material with _ | ds
    · simp only [deductItems, hfind] at hok
      cases hok
    · have hds := findStock_eq_some hfind
      by_cases hlt : ds.quantity < item.quantity
      · simp only [deductItems, hfind, if_pos hlt] at hok
        cases hok
      · have heq : deductItems dept (item :: rest) stocks =
            deductItems dept rest
              (saveStock stocks { ds with quantity := ds.quantity - item.quantity }) := by
          simp only [deductItems, hfind, if_neg hlt]
        rw [heq] at hok ⊢
        rw [ih _ hok d m]
        set ds' : DepartmentMaterialStock :=
          { ds with quantity := ds.quantity - item.quantity } with hds'
        by_cases hdm : d = dept ∧ m = item.material_material
        · have h1 : findStock (saveStock stocks ds') d m =
              (findStock stocks d m).map fun _ => ds' := by
            have : d = ds'.department := by rw [hds']; simp [hds.1, hdm.1]
            have h2 : m = ds'.material := by rw [hds']; simp [hds.2, hdm.2]
            rw [this, h2]
            exact findStock_saveStock_self stocks ds'
          have h3 : findStock stocks d m = some ds := by
            rw [hdm.1, hdm.2]; exact hfind
          have h4 : sumQty m (item :: rest) = item.quantity + sumQty m rest := by
            simp [sumQty, List.filter_cons, hdm.2]
          have hif : (if d = dept then sumQty m rest else 0) = sumQty m rest :=
            if_pos hdm.1
          have hif2 : (if d = dept then sumQty m (item :: rest) else 0)
              = sumQty m (item :: rest) := if_pos hdm.1
          rw [h1, h3]
          show some (ds'.quantity - if d = dept then sumQty m rest else 0)
              = some (ds.quantity - if d = dept then sumQty m (item :: rest) else 0)
          rw [hif, hif2, h4]
          have hq : ds'.quantity = ds.quantity - item.quantity := rfl
          rw [hq]
          congr 1
          ring
        · have h1 : findStock (saveStock stocks ds') d m = findStock stocks d m := by
            apply findStock_saveStock_ne
            rw [hds']
            simpa [hds.1, hds.2] using hdm
          rw [h1]
          by_cases hd : d = dept
          · have hm : m ≠ item.material_material := by
              intro hc
              exact hdm ⟨hd, hc⟩
            have h4 : sumQty m (item :: rest) = sumQty m rest := by
              simp [sumQty, List.filter_cons, Ne.symm hm]
            rw [h4]
          · simp [hd]

/-- **C1.** On a save of a `MaterialRequestModel` that transitions into
`passed` (a creation with status `passed`, or a save whose
`__original_approval_status` snapshot is not `passed`), provided every item
references a stock row of the request's own department and the deduction
raises no error, every stock row's quantity drops by exactly the sum of the
request-item quantities referencing it; and a save of an instance whose
snapshot is already `passed` (as a freshly loaded instance of an
already-passed request is) leaves every stock row unchanged, so the deduction
is applied exactly once. -/
theorem C1_deduct_exactly_once_on_transition (inst : MaterialRequestModel)
    (created : Bool) (items : List MaterialRequestItem)
    (stocks : List DepartmentMaterialStock)
    (hkeys : (stocks.map stockKey).Nodup)
    (hdept : ∀ it ∈ items, it.material_department = inst.department)
    (hpassed : inst.approval_status = .passed)
    (htrig : created = true ∨ inst.original_approval_status ≠ .passed)
    (hok : (update_stock inst created items stocks).2 = none) :
    (∀ e ∈ stocks,
      (findStock (update_stock inst created items stocks).1
          e.department e.material).map (·.quantity)
        = some (e.quantity - sumReferencing e items))
    ∧ ∀ (inst₂ : MaterialRequestModel) (items₂ : List MaterialRequestItem)
        (stocks₂ : List DepartmentMaterialStock),
        inst₂.approval_status = .passed →
        inst₂.original_approval_status = .passed →
        update_stock inst₂ false items₂ stocks₂ = (stocks₂, none) := by
  constructor
  · intro e he
    have hrun : update_stock inst created items stocks =
        deductItems inst.department items stocks := by
      have hcond : (created
          || decide (inst.original_approval_status ≠ ApprovalStatus.passed)) = true := by
        rcases htrig with h | h
        · rw [h]; rfl
        · have hdec : decide
              (inst.original_approval_status ≠ ApprovalStatus.passed) = true := by
            simpa using h
          rw [hdec, Bool.or_true]
      unfold update_stock
      rw [if_pos hpassed, if_pos hcond]
    rw [hrun] at hok ⊢
    rw [deductItems_findStock inst.department items stocks hok e.department e.material]
    rw [findStock_of_mem hkeys he]
    simp only [Option.map_some']
    congr 1
    by_cases hd : e.department = inst.department
    · rw [if_pos hd]
      have : sumReferencing e items = sumQty e.material items := by
        unfold sumReferencing sumQty
        congr 1
        congr 1
        apply List.filter_congr
        intro it hit
        simp [hdept it hit, hd]
      rw [this]
    · rw [if_neg hd]
      have : sumReferencing e items = 0 := by
        unfold sumReferencing
        have : (items.filter fun it =>
            it.material_department == e.department &&
            it.material_material == e.material) = [] := by
          rw [List.filter_eq_nil_iff]
          intro it hit
          simp only [Bool.and_eq_true, beq_iff_eq, not_and]
          intro hc _
          exact hd (hc ▸ hdept it hit)
        rw [this]
        rfl
      rw [this]
  · intro inst₂ items₂ stocks₂ h1 h2
    unfold update_stock
    rw [if_pos h1]
    simp [h2]

/-- Witness for C1: the example scenario of the spec — stock 10, one item of
quantity 4 approved (status goes `approving → passed`) leaves quantity 6; the
second conjunct instantiated at a re-save of the already-passed request
leaves the stock list untouched. -/
theorem C1_deduct_exactly_once_on_transition_witness :
    (findStock (update_stock ⟨1, .passed, .approving⟩ false
        [⟨1, 7, 4⟩] [⟨1, 7, 10, 2⟩]).1 1 7).map (·.quantity) = some 6
    ∧ update_stock ⟨1, .passed, .passed⟩ false [⟨1, 7, 4⟩] [⟨1, 7, 6, 2⟩]
        = ([⟨1, 7, 6, 2⟩], none) := by
  have h := C1_deduct_exactly_once_on_transition ⟨1, .passed, .approving⟩
    false [⟨1, 7, 4⟩] [⟨1, 7, 10, 2⟩] (by decide) (by decide) rfl
    (Or.inr (by decide)) (by decide)
  constructor
  · have h1 := h.1 ⟨1, 7, 10, 2⟩ (by decide)
    simpa using h1
  · exact h.2 ⟨1, .passed, .passed⟩ [⟨1, 7, 4⟩] [⟨1, 7, 6, 2⟩] rfl rfl

/-- **C2 (failing input).** Approving a two-item request whose second item
exceeds stock: department 1 holds 10 of material 7 and 3 of material 8; the
request asks for 4 of material 7 and 5 of material 8.  The transition into
`passed` raises the insufficiency error for material 8 — but only after the
first item has already been deducted and saved, so the stock is *not* left
unchanged: a partial deduction of the other item has occurred, contradicting
the claim. -/
theorem C2_insufficient_stock_partial_deduction :
    (update_stock ⟨1, .passed, .approving⟩ false
        [⟨1, 7, 4⟩, ⟨1, 8, 5⟩] [⟨1, 7, 10, 2⟩, ⟨1, 8, 3, 0⟩])
      = ([⟨1, 7, 6, 2⟩, ⟨1, 8, 3, 0⟩], some (.insufficient 8))
    ∧ (update_stock ⟨1, .passed, .approving⟩ false
        [⟨1, 7, 4⟩, ⟨1, 8, 5⟩] [⟨1, 7, 10, 2⟩, ⟨1, 8, 3, 0⟩]).1
      ≠ [⟨1, 7, 10, 2⟩, ⟨1, 8, 3, 0⟩] := by
  decide

/-- **C10.** The deduction loop re-fetches the stock row by the *request's*
department paired with the material of the item's referenced stock row —
not the item's referenced row itself.  An item referencing another
department's stock row causes the requesting department's row for that
material to be deducted while the referenced row stays untouched; and when
no row exists for the (request department, material) pair, the lookup raises
an unhandled `DoesNotExist` that aborts the transition mid-loop, keeping the
deductions already applied to earlier items. -/
theorem C10_deduction_refetches_by_department_and_material
    (dept d' mat mat2 : Nat) (q q' qty qs qs' : Int)
    (hne : d' ≠ dept) (hq : qty ≤ q) (hmat2 : mat2 ≠ mat) :
    update_stock ⟨dept, .passed, .approving⟩ false [⟨d', mat, qty⟩]
        [⟨dept, mat, q, qs⟩, ⟨d', mat, q', qs'⟩]
      = ([⟨dept, mat, q - qty, qs⟩, ⟨d', mat, q', qs'⟩], none)
    ∧ update_stock ⟨dept, .passed, .approving⟩ false
        [⟨dept, mat, qty⟩, ⟨dept, mat2, 1⟩] [⟨dept, mat, q, qs⟩]
      = ([⟨dept, mat, q - qty, qs⟩], some (.doesNotExist dept mat2)) := by
  have h1 : ¬ (q < qty) := not_lt.mpr hq
  constructor
  · simp [update_stock, deductItems, findStock, saveStock, h1, hne]
  · simp [update_stock, deductItems, findStock, saveStock, h1, hmat2, Ne.symm hmat2]

/-- Witness for C10: department 1 requests 4 of material 7 through an item
referencing department 2's stock row; department 1's row drops from 10 to 6
while department 2's row keeps quantity 5.  With a second item for material 8
and no (1, 8) stock row, the loop errors out after deducting the first
item. -/
theorem C10_deduction_refetches_by_department_and_material_witness :
    update_stock ⟨1, .passed, .approving⟩ false [⟨2, 7, 4⟩]
        [⟨1, 7, 10, 0⟩, ⟨2, 7, 5, 0⟩]
      = ([⟨1, 7, 6, 0⟩, ⟨2, 7, 5, 0⟩], none)
    ∧ update_stock ⟨1, .passed, .approving⟩ false
        [⟨1, 7, 4⟩, ⟨1, 8, 1⟩] [⟨1, 7, 10, 0⟩]
      = ([⟨1, 7, 6, 0⟩], some (.doesNotExist 1 8)) := by
  have h := C10_deduction_refetches_by_department_and_material 1 2 7 8
    10 5 4 0 0 (by decide) (by decide) (by decide)
  simpa using h

/-- `DepartmentMaterialStockForm.clean_quantity` (`src/mater/admin.py`):
reject a negative stock quantity with a `ValidationError` before persistence
(the spec's `NegativeValueError`). -/
def clean_quantity (quantity : Int) : Except String Int :=
  if quantity < 0 then .error "库存不能小于0。" else .ok quantity

/-- `DepartmentMaterialStockForm.clean_quantity_safety` (`src/mater/admin.py`):
reject a negative safety threshold with a `ValidationError` before
persistence. -/
def clean_quantity_safety (quantity_safety : Int) : Except String Int :=
  if quantity_safety < 0 then .error "库存预警不能小于0。" else .ok quantity_safety

/-- Create or update the row keyed by `s`'s (department, material) pair, or
insert it when absent — a form save on `DepartmentMaterialStockAdmin`. -/
def upsertStock (stocks : List DepartmentMaterialStock)
    (s : DepartmentMaterialStock) : List DepartmentMaterialStock :=
  match findStock stocks s.department s.material with
  | some _ => saveStock stocks s
  | none => stocks ++ [s]

/-- The operations that touch stock rows: a create/manual-edit through the
admin form (validated by `DepartmentMaterialStockForm`), and a
`MaterialRequestModel` save firing the `update_stock` signal handler. -/
inductive StockOp where
  | formSave (d m : Nat) (q qs : Int)
  | requestSave (inst : MaterialRequestModel) (created : Bool)
      (items : List MaterialRequestItem)

/-- Apply one operation to the stock table: a form save persists only when
both quantity validators accept (a `ValidationError` keeps the old rows); a
request save runs `update_stock`, whose reached state persists even when the
handler raises mid-loop. -/
def applyStockOp (stocks : List DepartmentMaterialStock) (op : StockOp) :
    List DepartmentMaterialStock :=
  match op with
  | .formSave d m q qs =>
    match clean_quantity q, clean_quantity_safety qs with
    | .ok _, .ok _ => upsertStock stocks ⟨d, m, q, qs⟩
    | _, _ => stocks
  | .requestSave inst created items =>
    (update_stock inst created items stocks).1

/-- The non-negativity invariant of the stock ledger. -/
def stockNonNeg (stocks : List DepartmentMaterialStock) : Prop :=
  ∀ e ∈ stocks, 0 ≤ e.quantity ∧ 0 ≤ e.quantity_safety

lemma mem_saveStock {stocks : List DepartmentMaterialStock}
    {s e : DepartmentMaterialStock} (h : e ∈ saveStock stocks s) :
    e = s ∨ e ∈ stocks := by
  rcases List.mem_map.mp h with ⟨a, ha, hfa⟩
  by_cases hc : (a.department == s.department && a.material == s.material) = true
  · rw [if_pos hc] at hfa
    exact Or.inl hfa.symm
  · rw [if_neg hc] at hfa
    exact Or.inr (hfa ▸ ha)

lemma mem_upsertStock {stocks : List DepartmentMaterialStock}
    {s e : DepartmentMaterialStock} (h : e ∈ upsertStock stocks s) :
    e = s ∨ e ∈ stocks := by
  unfold upsertStock at h
  rcases hres : findStock stocks s.department s.material with _ | a
  · rw [hres] at h
    rcases List.mem_append.mp h with h1 | h1
    · exact Or.inr h1
    · exact Or.inl (List.mem_singleton.mp h1)
  · rw [hres] at h
    exact mem_saveStock h

lemma deductItems_nonneg (dept : Nat) (items : List MaterialRequestItem) :
    ∀ stocks : List DepartmentMaterialStock, stockNonNeg stocks →
      stockNonNeg (deductItems dept items stocks).1 := by
  induction items with
  | nil => intro stocks h; exact h
  | cons item rest ih =>
    intro stocks h
    rcases hfind : findStock stocks dept item.material_material with _ | ds
    · simpa [deductItems, hfind] using h
    · by_cases hlt : ds.quantity < item.quantity
      · simpa [deductItems, hfind, hlt] using h
      · have heq : (deductItems dept (item :: rest) stocks) =
            deductItems dept rest
              (saveStock stocks { ds with quantity := ds.quantity - item.quantity }) := by
          simp only [deductItems, hfind, if_neg hlt]
        rw [heq]
        apply ih
        intro e he
        rcases mem_saveStock he with rfl | hmem
        · have hds : ds ∈ stocks := List.mem_of_find?_eq_some hfind
          have := h ds hds
          constructor
          · simp only
            omega
          · simpa using this.2
        · exact h e hmem

lemma update_stock_nonneg (inst : MaterialRequestModel) (created : Bool)
    (items : List MaterialRequestItem)
    (stocks : List DepartmentMaterialStock) (h : stockNonNeg stocks) :
    stockNonNeg (update_stock inst created items stocks).1 := by
  unfold update_stock
  by_cases h1 : inst.approval_status = ApprovalStatus.passed
  · rw [if_pos h1]
    by_cases h2 : (created || decide (inst.original_approval_status ≠ ApprovalStatus.passed)) = true
    · rw [if_pos h2]
      exact deductItems_nonneg inst.department items stocks h
    · rw [if_neg h2]
      exact h
  · rw [if_neg h1]
    exact h

lemma applyStockOp_nonneg (stocks : List DepartmentMaterialStock)
    (op : StockOp) (h : stockNonNeg stocks) :
    stockNonNeg (applyStockOp stocks op) := by
  rcases op with ⟨d, m, q, qs⟩ | ⟨inst, created, items⟩
  · by_cases hq : q < 0
    · simpa [applyStockOp, clean_quantity, hq] using h
    · by_cases hqs : qs < 0
      · simpa [applyStockOp, clean_quantity, clean_quantity_safety, hq, hqs] using h
      · have heq : applyStockOp stocks (.formSave d m q qs)
            = upsertStock stocks ⟨d, m, q, qs⟩ := by
          simp [applyStockOp, clean_quantity, clean_quantity_safety, hq, hqs]
        rw [heq]
        intro e he
        rcases mem_upsertStock he with rfl | hmem
        · exact ⟨by simpa using not_lt.mp hq, by simpa using not_lt.mp hqs⟩
        · exact h e hmem
  · exact update_stock_nonneg inst created items stocks h

/-- **C4.** Starting from a stock table satisfying the non-negativity
invariant, any sequence of operations — admin-form creates/edits and
approved-request deductions — preserves `quantity ≥ 0` and
`quantity_safety ≥ 0` on every row; moreover a form save carrying a negative
quantity or safety threshold leaves the table unchanged, because the
validators reject the value (`NegativeValueError`) before persistence. -/
theorem C4_quantities_stay_nonnegative (stocks₀ : List DepartmentMaterialStock)
    (ops : List StockOp) (hinv : stockNonNeg stocks₀) :
    stockNonNeg (ops.foldl applyStockOp stocks₀)
    ∧ (∀ (stocks : List DepartmentMaterialStock) (d m : Nat) (q qs : Int),
        q < 0 ∨ qs < 0 → applyStockOp stocks (.formSave d m q qs) = stocks)
    ∧ (∀ q : Int, q < 0 → clean_quantity q = .error "库存不能小于0。")
    ∧ (∀ qs : Int, qs < 0 →
        clean_quantity_safety qs = .error "库存预警不能小于0。") := by
  refine ⟨?_, ?_, ?_, ?_⟩
  · induction ops generalizing stocks₀ with
    | nil => exact hinv
    | cons op rest ih =>
      exact ih (applyStockOp stocks₀ op) (applyStockOp_nonneg stocks₀ op hinv)
  · intro stocks d m q qs hneg
    rcases hneg with hq | hqs
    · simp [applyStockOp, clean_quantity, hq]
    · by_cases hq : q < 0
      · simp [applyStockOp, clean_quantity, hq]
      · simp [applyStockOp, clean_quantity, clean_quantity_safety, hq, hqs]
  · intro q hq
    simp [clean_quantity, hq]
  · intro qs hqs
    simp [clean_quantity_safety, hqs]

/-- Witness for C4: from an empty table, a form create of (dept 1,
material 7) with quantity 10 / safety 2 followed by an approved request for
4 keeps every row non-negative, and a form save with quantity -1 is
rejected unchanged. -/
theorem C4_quantities_stay_nonnegative_witness :
    stockNonNeg ([StockOp.formSave 1 7 10 2,
        StockOp.requestSave ⟨1, .passed, .approving⟩ false [⟨1, 7, 4⟩]].foldl
          applyStockOp [])
    ∧ applyStockOp [⟨1, 7, 10, 2⟩] (.formSave 1 7 (-1) 0) = [⟨1, 7, 10, 2⟩] := by
  have h := C4_quantities_stay_nonnegative []
    [StockOp.formSave 1 7 10 2,
     StockOp.requestSave ⟨1, .passed, .approving⟩ false [⟨1, 7, 4⟩]]
    (by intro e he; cases he)
  exact ⟨h.1, h.2.1 [⟨1, 7, 10, 2⟩] 1 7 (-1) 0 (Or.inl (by decide))⟩

/-- The concrete field names of `MaterialRequestItem._meta.fields`, returned
by `get_readonly_fields` on a locked request. -/
def materialRequestItemFields : List String :=
  ["id", "request", "material", "quantity"]

/-- `MaterialRequestItemInline.get_readonly_fields` (`src/mater/admin.py`):
when the parent request exists and its status is `passed` or `nopass`, every
item field is read-only; otherwise the default (no read-only fields). -/
def inline_get_readonly_fields (obj : Option MaterialRequestModel) :
    List String :=
  match obj with
  | some o =>
    if o.approval_status = .passed ∨ o.approval_status = .nopass then
      materialRequestItemFields
    else []
  | none => []

/-- `MaterialRequestItemInline.has_add_permission` (`src/mater/admin.py`):
adding items is forbidden on a `passed`/`nopass` request; otherwise the
framework default (granted to an authorized admin user). -/
def inline_has_add_permission (obj : Option MaterialRequestModel) : Bool :=
  match obj with
  | some o =>
    !(o.approval_status = ApprovalStatus.passed
      ∨ o.approval_status = ApprovalStatus.nopass : Bool)
  | none => true

/-- `MaterialRequestItemInline.has_delete_permission`
(`src/mater/admin.py`): deleting items is forbidden on a `passed`/`nopass`
request; otherwise the framework default. -/
def inline_has_delete_permission (obj : Option MaterialRequestModel) : Bool :=
  match obj with
  | some o =>
    !(o.approval_status = ApprovalStatus.passed
      ∨ o.approval_status = ApprovalStatus.nopass : Bool)
  | none => true

/-- The spec's `RequestLockedError`: the rejection the admin surface produces
when the inline guards deny an item mutation. -/
inductive RequestLockedError where
  | requestLocked
deriving DecidableEq, Repr

/-- A mutation of the item collection attempted through the inline: editing
one of the two editable model fields of an existing item, adding an item, or
deleting an item. -/
inductive ItemMutation where
  | editQuantity (idx : Nat) (v : Int)
  | editMaterial (idx : Nat) (d m : Nat)
  | addItem (it : MaterialRequestItem)
  | deleteItem (idx : Nat)

/-- Admin-framework semantics of the inline guards of
`MaterialRequestItemInline`: an edit of a field listed read-only, an add
without add permission, or a delete without delete permission is rejected and
persists nothing; otherwise the mutation is applied to the collection. -/
def applyItemMutation (obj : MaterialRequestModel)
    (items : List MaterialRequestItem) (mu : ItemMutation) :
    Except RequestLockedError (List MaterialRequestItem) :=
  match mu with
  | .editQuantity idx v =>
    if "quantity" ∈ inline_get_readonly_fields (some obj) then
      .error .requestLocked
    else
      .ok (items.mapIdx fun i it =>
        if i = idx then { it with quantity := v } else it)
  | .editMaterial idx d m =>
    if "material" ∈ inline_get_readonly_fields (some obj) then
      .error .requestLocked
    else
      .ok (items.mapIdx fun i it =>
        if i = idx then
          { it with material_department := d, material_material := m }
        else it)
  | .addItem it =>
    if inline_has_add_permission (some obj) then .ok (items ++ [it])
    else .error .requestLocked
  | .deleteItem idx =>
    if inline_has_delete_permission (some obj) then .ok (items.eraseIdx idx)
    else .error .requestLocked

/-- **C5.** On a request whose `approval_status` is `passed` or `nopass`,
every attempted mutation of its item collection — field edit, add, or
delete — is rejected (`RequestLockedError`): `get_readonly_fields` lists all
item fields and both `has_add_permission` / `has_delete_permission` deny, so
no mutated collection is ever produced and the items stay unchanged. -/
theorem C5_terminal_request_locks_items (obj : MaterialRequestModel)
    (items : List MaterialRequestItem) (mu : ItemMutation)
    (hterm : obj.approval_status = .passed ∨ obj.approval_status = .nopass) :
    applyItemMutation obj items mu = .error .requestLocked := by
  have hro : inline_get_readonly_fields (some obj) = materialRequestItemFields := by
    simp [inline_get_readonly_fields, hterm]
  have hadd : inline_has_add_permission (some obj) = false := by
    simp [inline_has_add_permission, hterm]
  have hdel : inline_has_delete_permission (some obj) = false := by
    simp [inline_has_delete_permission, hterm]
  rcases mu with ⟨idx, v⟩ | ⟨idx, d, m⟩ | it | idx
  · simp [applyItemMutation, hro, materialRequestItemFields]
  · simp [applyItemMutation, hro, materialRequestItemFields]
  · simp [applyItemMutation, hadd]
  · simp [applyItemMutation, hdel]

/-- Witness for C5: a quantity edit on a `passed` request and a delete on a
`nopass` request are both rejected. -/
theorem C5_terminal_request_locks_items_witness :
    applyItemMutation ⟨1, .passed, .approving⟩ [⟨1, 7, 4⟩]
        (.editQuantity 0 9) = .error .requestLocked
    ∧ applyItemMutation ⟨1, .nopass, .approving⟩ [⟨1, 7, 4⟩]
        (.deleteItem 0) = .error .requestLocked :=
  ⟨C5_terminal_request_locks_items ⟨1, .passed, .approving⟩ [⟨1, 7, 4⟩]
      (.editQuantity 0 9) (Or.inl rfl),
   C5_terminal_request_locks_items ⟨1, .nopass, .approving⟩ [⟨1, 7, 4⟩]
      (.deleteItem 0) (Or.inr rfl)⟩

/-- One form of the item inline formset, as
`MaterialRequestItemInlineFormset.clean` reads it: its cleaned data (the
referenced stock row under the `material` key and the requested `quantity`),
the `DELETE` mark, whether the cleaned-data dict is non-empty, and whether
the form's own field validation succeeded. -/
structure ItemForm where
  material : Option DepartmentMaterialStock
  quantity : Int
  deleteMarked : Bool
  hasCleanedData : Bool
  isValid : Bool

/-- The error text `add_error` attaches to the `quantity` field:
`存量不足，申请的数量不能超过 {available} 个。`, naming the available
quantity. -/
def insufficientMsg (available : Int) : String :=
  "存量不足，申请的数量不能超过 " ++ toString available ++ " 个。"

/-- The loop of `MaterialRequestItemInlineFormset.clean`
(`src/mater/admin.py`), indexed from `i`: an invalid form aborts the walk
(`return` — errors already added to earlier forms stay); a form with cleaned
data that is not marked for deletion, whose material and request department
are both set, gets a `quantity` error when the requested quantity exceeds the
referenced stock row's quantity. -/
def formset_clean_go (department : Option Nat) :
    Nat → List ItemForm → List (Nat × String)
  | _, [] => []
  | i, f :: rest =>
    if f.isValid = false then []
    else
      (if f.hasCleanedData && !f.deleteMarked then
        match f.material, department with
        | some department_stock, some _ =>
          if department_stock.quantity < f.quantity then
            [(i, insufficientMsg department_stock.quantity)]
          else []
        | _, _ => []
      else []) ++ formset_clean_go department (i + 1) rest

/-- `MaterialRequestItemInlineFormset.clean`: the quantity errors added over
all forms, each paired with its form index. -/
def formset_clean (department : Option Nat) (forms : List ItemForm) :
    List (Nat × String) :=
  formset_clean_go department 0 forms

/-- Formset persistence semantics: a formset whose `clean` added errors is
invalid and saves nothing (the item collection stays `items`); an error-free
formset persists the submitted collection `newItems`. -/
def formset_submit (department : Option Nat) (forms : List ItemForm)
    (items newItems : List MaterialRequestItem) :
    List MaterialRequestItem × List (Nat × String) :=
  match formset_clean department forms with
  | [] => (newItems, [])
  | errs => (items, errs)

/-- **C6.** Adding or editing one item through the inline formset (a valid
form with cleaned data, not marked for deletion, with its stock row and the
request's department set): when the requested quantity exceeds the stock
row's current quantity, `clean` attaches the error naming the available
quantity and nothing is persisted; when the quantity is within stock,
validation passes and the submission persists. -/
theorem C6_item_quantity_validated_against_stock (f : ItemForm) (d : Nat)
    (ds : DepartmentMaterialStock)
    (hvalid : f.isValid = true) (hdata : f.hasCleanedData = true)
    (hdel : f.deleteMarked = false) (hmat : f.material = some ds)
    (items newItems : List MaterialRequestItem) :
    (ds.quantity < f.quantity →
      formset_clean (some d) [f] = [(0, insufficientMsg ds.quantity)]
      ∧ formset_submit (some d) [f] items newItems
          = (items, [(0, insufficientMsg ds.quantity)]))
    ∧ (f.quantity ≤ ds.quantity →
      formset_clean (some d) [f] = []
      ∧ formset_submit (some d) [f] items newItems = (newItems, [])) := by
  constructor
  · intro hlt
    have hclean : formset_clean (some d) [f]
        = [(0, insufficientMsg ds.quantity)] := by
      simp [formset_clean, formset_clean_go, hvalid, hdata, hdel, hmat, hlt]
    refine ⟨hclean, ?_⟩
    simp [formset_submit, hclean]
  · intro hle
    have hclean : formset_clean (some d) [f] = [] := by
      simp [formset_clean, formset_clean_go, hvalid, hdata, hdel, hmat,
        not_lt.mpr hle]
    refine ⟨hclean, ?_⟩
    simp [formset_submit, hclean]

/-- Witness for C6: requesting 5 of a stock row holding 3 is rejected with
the message naming 3; requesting 4 of a row holding 10 passes and
persists. -/
theorem C6_item_quantity_validated_against_stock_witness :
    (formset_clean (some 1) [⟨some ⟨1, 7, 3, 0⟩, 5, false, true, true⟩]
        = [(0, insufficientMsg 3)]
      ∧ formset_submit (some 1) [⟨some ⟨1, 7, 3, 0⟩, 5, false, true, true⟩]
          [] [⟨1, 7, 5⟩] = ([], [(0, insufficientMsg 3)]))
    ∧ (formset_clean (some 1) [⟨some ⟨1, 7, 10, 0⟩, 4, false, true, true⟩] = []
      ∧ formset_submit (some 1) [⟨some ⟨1, 7, 10, 0⟩, 4, false, true, true⟩]
          [] [⟨1, 7, 4⟩] = ([⟨1, 7, 4⟩], [])) :=
  ⟨(C6_item_quantity_validated_against_stock
      ⟨some ⟨1, 7, 3, 0⟩, 5, false, true, true⟩ 1 ⟨1, 7, 3, 0⟩
      rfl rfl rfl rfl [] [⟨1, 7, 5⟩]).1 (by decide),
   (C6_item_quantity_validated_against_stock
      ⟨some ⟨1, 7, 10, 0⟩, 4, false, true, true⟩ 1 ⟨1, 7, 10, 0⟩
      rfl rfl rfl rfl [] [⟨1, 7, 4⟩]).2 (by decide)⟩

/-- A domain entity as the audit receivers in `src/mater/signals.py` see it:
the rendered content-type name, the row id, and the `creator` attribute when
it resolves to a user — `none` covers both a missing attribute
(`hasattr(instance, 'creator')` false) and a null creator, the two cases the
source collapses into `user = None` / `if user:` falsy. -/
structure AuditedEntity where
  typeName : String
  id : Nat
  creator : Option Nat

/-- One row of the `AuditLog` model (`src/mater/models.py`): acting user,
action, rendered content.  Rows are only ever appended. -/
structure AuditLog where
  user : Nat
  action : String
  content : String
deriving DecidableEq, Repr

/-- The `post_save` receiver `audit_log_save_update` (`src/mater/signals.py`):
action is `Created` for a creating save and `Updated` otherwise; when the
entity has a truthy `creator`, append one log row whose content renders the
content type, the id and the action; otherwise append nothing. -/
def audit_log_save_update (e : AuditedEntity) (created : Bool)
    (log : List AuditLog) : List AuditLog :=
  let action := if created then "Created" else "Updated"
  match e.creator with
  | some user =>
    log ++ [⟨user, action,
      e.typeName ++ " id " ++ toString e.id ++ " was " ++ action⟩]
  | none => log

/-- The `post_delete` receiver `audit_log_delete` (`src/mater/signals.py`):
like the save receiver, with action `Deleted`. -/
def audit_log_delete (e : AuditedEntity) (log : List AuditLog) :
    List AuditLog :=
  match e.creator with
  | some user =>
    log ++ [⟨user, "Deleted",
      e.typeName ++ " id " ++ toString e.id ++ " was Deleted"⟩]
  | none => log

/-- **C7.** For a save or delete event on an entity with a resolvable acting
user `u`, exactly one log row is appended — action `Created` for a creating
save, `Updated` for a non-creating save, `Deleted` for a delete — whose
content names the entity type and its identifier; an entity without a
resolvable user appends nothing, and no error is raised (the handlers are
total). -/
theorem C7_audit_log_one_entry_per_event (e : AuditedEntity) (created : Bool)
    (log : List AuditLog) :
    (∀ u, e.creator = some u →
      audit_log_save_update e created log
          = log ++ [⟨u, if created then "Created" else "Updated",
              e.typeName ++ " id " ++ toString e.id ++ " was "
                ++ (if created then "Created" else "Updated")⟩]
        ∧ audit_log_delete e log
          = log ++ [⟨u, "Deleted",
              e.typeName ++ " id " ++ toString e.id ++ " was Deleted"⟩])
    ∧ (e.creator = none →
      audit_log_save_update e created log = log
        ∧ audit_log_delete e log = log) := by
  constructor
  · intro u hu
    constructor
    · simp [audit_log_save_update, hu]
    · simp [audit_log_delete, hu]
  · intro hn
    constructor
    · simp [audit_log_save_update, hn]
    · simp [audit_log_delete, hn]

/-- Witness for C7: a creating save by user 7 on entity id 3 appends the
single `Created` row; an entity with no resolvable user appends nothing. -/
theorem C7_audit_log_one_entry_per_event_witness :
    audit_log_save_update ⟨"mater | material request", 3, some 7⟩ true []
        = [⟨7, "Created", "mater | material request id 3 was Created"⟩]
    ∧ audit_log_save_update ⟨"mater | material request", 3, none⟩ true []
        = [] := by
  have h1 := (C7_audit_log_one_entry_per_event
      ⟨"mater | material request", 3, some 7⟩ true []).1 7 rfl
  have h2 := (C7_audit_log_one_entry_per_event
      ⟨"mater | material request", 3, none⟩ true []).2 rfl
  exact ⟨by simpa using h1.1, by simpa using h2.1⟩

/-- The audit append `AuditLog.objects.create(...)` is a synchronous database
write that can itself fail; `audit_log_save_update` wraps it in no
try/except, so the handler is modelled over an explicit outcome of that
call: `appendOk = false` makes the create raise, and the raise becomes the
handler's own result — nothing in `src/mater/signals.py` catches it, so it
propagates to the caller of the triggering `save()` through the signal
dispatch. -/
def audit_log_save_update_unguarded (e : AuditedEntity) (created : Bool)
    (log : List AuditLog) (appendOk : Bool) :
    Except String (List AuditLog) :=
  let action := if created then "Created" else "Updated"
  match e.creator with
  | some user =>
    if appendOk then
      .ok (log ++ [⟨user, action,
        e.typeName ++ " id " ++ toString e.id ++ " was " ++ action⟩])
    else
      .error "AuditLog.objects.create failed"
  | none => .ok log

/-- **C8 (failing input).** An update save by user 7 of entity id 3 whose
audit append fails: the receiver's unguarded `objects.create` raise escapes
the handler, so the triggering save's caller receives the error — audit-log
failure does propagate, contradicting the claim's isolation requirement
(which the spec states as the intent while noting the source's call is
unguarded). -/
theorem C8_audit_failure_propagates :
    audit_log_save_update_unguarded
        ⟨"mater | material request", 3, some 7⟩ false [] false
      = .error "AuditLog.objects.create failed" := rfl

/-- The acting admin user, as seen by `get_queryset`: id and the
`is_superuser` flag. -/
structure AdminUser where
  id : Nat
  is_superuser : Bool

/-- One row of `UserDepartment` (`src/mater/models.py`): a one-to-one
assignment of a user to a department. -/
structure UserDepartment where
  user : Nat
  department : Nat

/-- `UserDepartment.objects.filter(user=request.user).first()` — and, with at
most one row per user (`user` is one-to-one), also the
`UserDepartment.objects.get(...)` of the request admin, whose `DoesNotExist`
branch is the `none` case. -/
def userDepartmentOf (uds : List UserDepartment) (u : Nat) :
    Option UserDepartment :=
  uds.find? fun ud => ud.user == u

/-- One row of `MaterialRequestModel` as the changelist sees it: id and
requesting department. -/
structure MaterialRequestRow where
  id : Nat
  department : Nat
deriving DecidableEq, Repr

/-- `DepartmentMaterialStockAdmin.get_queryset` (`src/mater/admin.py`):
superusers see every row; a user assigned to a department sees that
department's stock rows; an unassigned user sees none. -/
def stock_get_queryset (u : AdminUser) (uds : List UserDepartment)
    (qs : List DepartmentMaterialStock) : List DepartmentMaterialStock :=
  if u.is_superuser then qs
  else
    match userDepartmentOf uds u.id with
    | some ud => qs.filter fun r => r.department == ud.department
    | none => []

/-- `MaterialRequestModelAdmin.get_queryset` (`src/mater/admin.py`): same
scoping for the request changelist. -/
def request_get_queryset (u : AdminUser) (uds : List UserDepartment)
    (qs : List MaterialRequestRow) : List MaterialRequestRow :=
  if u.is_superuser then qs
  else
    match userDepartmentOf uds u.id with
    | some ud => qs.filter fun r => r.department == ud.department
    | none => []

/-- **C9.** A superuser's stock and request listings return all rows; a
non-superuser assigned to a department gets exactly the rows of that
department; a non-superuser with no assignment gets the empty set. -/
theorem C9_department_scoped_visibility (u : AdminUser)
    (uds : List UserDepartment) (stocks : List DepartmentMaterialStock)
    (reqs : List MaterialRequestRow) :
    (u.is_superuser = true →
      stock_get_queryset u uds stocks = stocks
        ∧ request_get_queryset u uds reqs = reqs)
    ∧ (∀ ud, u.is_superuser = false → userDepartmentOf uds u.id = some ud →
      (∀ r, r ∈ stock_get_queryset u uds stocks
          ↔ r ∈ stocks ∧ r.department = ud.department)
        ∧ ∀ r, r ∈ request_get_queryset u uds reqs
          ↔ r ∈ reqs ∧ r.department = ud.department)
    ∧ (u.is_superuser = false → userDepartmentOf uds u.id = none →
      stock_get_queryset u uds stocks = []
        ∧ request_get_queryset u uds reqs = []) := by
  refine ⟨?_, ?_, ?_⟩
  · intro hsu
    constructor <;> simp [stock_get_queryset, request_get_queryset, hsu]
  · intro ud hsu hud
    constructor
    · intro r
      simp [stock_get_queryset, hsu, hud, List.mem_filter]
    · intro r
      simp [request_get_queryset, hsu, hud, List.mem_filter]
  · intro hsu hud
    constructor <;> simp [stock_get_queryset, request_get_queryset, hsu, hud]

/-- Witness for C9: user 5 assigned to department 1 sees exactly department
1's stock row; superuser 9 sees both; unassigned user 6 sees nothing. -/
theorem C9_department_scoped_visibility_witness :
    ((⟨1, 7, 10, 0⟩ : DepartmentMaterialStock)
        ∈ stock_get_queryset ⟨5, false⟩ [⟨5, 1⟩] [⟨1, 7, 10, 0⟩, ⟨2, 7, 5, 0⟩]
      ↔ (⟨1, 7, 10, 0⟩ : DepartmentMaterialStock)
          ∈ [(⟨1, 7, 10, 0⟩ : DepartmentMaterialStock), ⟨2, 7, 5, 0⟩] ∧ 1 = 1)
    ∧ stock_get_queryset ⟨9, true⟩ [] [⟨1, 7, 10, 0⟩, ⟨2, 7, 5, 0⟩]
        = [⟨1, 7, 10, 0⟩, ⟨2, 7, 5, 0⟩]
    ∧ stock_get_queryset ⟨6, false⟩ [⟨5, 1⟩] [⟨1, 7, 10, 0⟩] = [] := by
  refine ⟨?_, ?_, ?_⟩
  · exact ((C9_department_scoped_visibility ⟨5, false⟩ [⟨5, 1⟩]
      [⟨1, 7, 10, 0⟩, ⟨2, 7, 5, 0⟩] []).2.1 ⟨5, 1⟩ rfl rfl).1 ⟨1, 7, 10, 0⟩
  · exact ((C9_department_scoped_visibility ⟨9, true⟩ []
      [⟨1, 7, 10, 0⟩, ⟨2, 7, 5, 0⟩] []).1 rfl).1
  · exact ((C9_department_scoped_visibility ⟨6, false⟩ [⟨5, 1⟩]
      [⟨1, 7, 10, 0⟩] []).2.2 rfl rfl).1

/-- Python's `"{:03}".format(n)`: the decimal representation of `n`,
zero-padded on the left to at least three characters (longer representations
are kept as they are). -/
def pad3 (n : Nat) : String :=
  let s := toString n
  if s.length < 3 then String.mk (List.replicate (3 - s.length) '0') ++ s else s

/-- Python's `int(...)` on the digit-only counter suffix of a request
number. -/
def parseCounter (s : String) : Nat :=
  s.data.foldl (fun a c => a * 10 + (c.toNat - 48)) 0

/-- The `request_number__startswith=prefix` queryset filter. -/
def strStartsWith (p s : String) : Bool :=
  p.data.isPrefixOf s.data

/-- Python's `s.split(prefix)[-1]` for the strings at hand: a stored request
number carries the prefix exactly once, at position 0 (the remainder is
digits only), so splitting on the prefix and taking the last piece is
dropping the prefix. -/
def afterPfx (p s : String) : String :=
  String.mk (s.data.drop p.data.length)

/-- `.order_by('request_number').last()`: the lexicographically last of the
matching numbers, `none` on an empty queryset. -/
def queryLast (l : List String) : Option String :=
  l.foldl
    (fun acc s =>
      match acc with
      | none => some s
      | some m => if m < s then some s else some m)
    none

/-- `MaterialRequestModel.generate_request_number` (`src/mater/models.py`):
prefix `WL` + today's date (`YYYYMMDD`); take the last existing number with
that prefix, parse its trailing counter, add one and zero-pad to three
digits; start at `001` when no number with the prefix exists. -/
def generate_request_number (today : String) (existing : List String) :
    String :=
  match queryLast (existing.filter fun s => strStartsWith ("WL" ++ today) s)
  with
  | some last =>
    "WL" ++ today ++ pad3 (parseCounter (afterPfx ("WL" ++ today) last) + 1)
  | none => "WL" ++ today ++ "001"

/-- The request-number column after `n` sequential creations on day `today`
against the initial table `existing`: each new `MaterialRequestModel` stores
the number generated from the table it observes
(`MaterialRequestModel.__init__` / `save` assign it on creation). -/
def requestTable (today : String) (existing : List String) : Nat → List String
  | 0 => existing
  | n + 1 =>
    requestTable today existing n
      ++ [generate_request_number today (requestTable today existing n)]

lemma pad3_one : pad3 1 = "001" := rfl

set_option maxRecDepth 10000 in
lemma pad3_toList_lt_succ : ∀ k, k < 999 →
    (pad3 k).toList < (pad3 (k + 1)).toList := by decide

set_option maxRecDepth 10000 in
lemma parseCounter_pad3 : ∀ i, i < 1000 → parseCounter (pad3 i) = i := by
  decide

lemma pad3_lt_succ (k : Nat) (hk : k < 999) : pad3 k < pad3 (k + 1) :=
  String.lt_iff_toList_lt.mpr (pad3_toList_lt_succ k hk)

lemma str_append_lt (p : String) {a b : String} (h : a < b) :
    p ++ a < p ++ b := by
  rw [String.lt_iff_toList_lt] at h ⊢
  have ha : (p ++ a).toList = p.toList ++ a.toList := String.data_append ..
  have hb : (p ++ b).toList = p.toList ++ b.toList := String.data_append ..
  rw [ha, hb]
  exact List.Lex.append_left _ h _

lemma strStartsWith_append (p x : String) : strStartsWith p (p ++ x) = true := by
  unfold strStartsWith
  rw [String.data_append]
  exact List.isPrefixOf_iff_prefix.mpr (List.prefix_append p.data x.data)

lemma afterPfx_append (p x : String) : afterPfx p (p ++ x) = x := by
  unfold afterPfx
  rw [String.data_append, List.drop_left]

lemma strStartsWith_ne_day (today today' x : String)
    (hlen : today'.length = today.length) (hne : today' ≠ today) :
    strStartsWith ("WL" ++ today') ("WL" ++ today ++ x) = false := by
  unfold strStartsWith
  rw [Bool.eq_false_iff]
  intro hpre
  rw [List.isPrefixOf_iff_prefix] at hpre
  simp only [String.data_append] at hpre
  rw [List.append_assoc] at hpre
  rw [List.prefix_append_right_inj] at hpre
  rcases hpre with ⟨t, ht⟩
  apply hne
  have hlen' : today'.data.length = today.data.length := hlen
  have h1 : (today'.data ++ t).take today'.data.length = today'.data :=
    List.take_left ..
  rw [ht, hlen', List.take_left] at h1
  exact String.toList_inj.mp h1.symm

lemma queryLast_append (l : List String) (x : String) :
    queryLast (l ++ [x]) = some (match queryLast l with
      | none => x
      | some m => if m < x then x else m) := by
  have hfold : queryLast (l ++ [x]) =
      (fun acc s =>
        match acc with
        | none => some s
        | some m => if m < s then some s else some m) (queryLast l) x := by
    unfold queryLast
    rw [List.foldl_append]
    rfl
  rw [hfold]
  rcases queryLast l with _ | m
  · rfl
  · by_cases hx : m < x
    · simp [hx]
    · simp [hx]

lemma queryLast_map_range' (f : Nat → String) (n : Nat) (hn : 1 ≤ n)
    (hmono : ∀ k, 1 ≤ k → k + 1 ≤ n → f k < f (k + 1)) :
    queryLast ((List.range' 1 n).map f) = some (f n) := by
  induction n with
  | zero => omega
  | succ n ih =>
    rcases Nat.eq_zero_or_pos n with rfl | hpos
    · rfl
    · have hconcat : List.range' 1 (n + 1) = List.range' 1 n ++ [n + 1] := by
        simpa [Nat.add_comm] using @List.range'_concat 1 1 n
      rw [hconcat, List.map_append]
      simp only [List.map_cons, List.map_nil]
      rw [queryLast_append]
      rw [ih hpos fun k h1 h2 => hmono k h1 (by omega)]
      have hlt : f n < f (n + 1) := hmono n hpos (by omega)
      simp only [List.map_cons, List.map_nil]
      rw [if_pos hlt]

lemma generate_at_table (today : String) (existing : List String) (n : Nat)
    (hfresh : ∀ s ∈ existing, strStartsWith ("WL" ++ today) s = false)
    (hn : n ≤ 999) :
    generate_request_number today
        (existing ++ (List.range' 1 n).map fun i => "WL" ++ today ++ pad3 i)
      = "WL" ++ today ++ pad3 (n + 1) := by
  have hfilter :
      (existing ++ (List.range' 1 n).map fun i =>
        "WL" ++ today ++ pad3 i).filter
          (fun s => strStartsWith ("WL" ++ today) s)
        = (List.range' 1 n).map fun i => "WL" ++ today ++ pad3 i := by
    rw [List.filter_append]
    have h1 : existing.filter (fun s => strStartsWith ("WL" ++ today) s)
        = [] := by
      rw [List.filter_eq_nil_iff]
      intro s hs
      simp [hfresh s hs]
    have h2 : ((List.range' 1 n).map fun i =>
        "WL" ++ today ++ pad3 i).filter
          (fun s => strStartsWith ("WL" ++ today) s)
        = (List.range' 1 n).map fun i => "WL" ++ today ++ pad3 i := by
      rw [List.filter_eq_self]
      intro s hs
      rcases List.mem_map.mp hs with ⟨i, _, rfl⟩
      exact strStartsWith_append ("WL" ++ today) (pad3 i)
    rw [h1, h2, List.nil_append]
  rcases Nat.eq_zero_or_pos n with rfl | hpos
  · unfold generate_request_number
    rw [hfilter]
    rfl
  · unfold generate_request_number
    rw [hfilter]
    have hq : queryLast ((List.range' 1 n).map fun i =>
        "WL" ++ today ++ pad3 i) = some ("WL" ++ today ++ pad3 n) := by
      apply queryLast_map_range' _ n hpos
      intro k hk1 hk2
      exact str_append_lt _ (pad3_lt_succ k (by omega))
    rw [hq]
    show "WL" ++ today
        ++ pad3 (parseCounter
            (afterPfx ("WL" ++ today) ("WL" ++ today ++ pad3 n)) + 1)
      = "WL" ++ today ++ pad3 (n + 1)
    rw [afterPfx_append, parseCounter_pad3 n (by omega)]

lemma requestTable_eq (today : String) (existing : List String)
    (hfresh : ∀ s ∈ existing, strStartsWith ("WL" ++ today) s = false) :
    ∀ n, n ≤ 999 →
      requestTable today existing n
        = existing
          ++ (List.range' 1 n).map fun i => "WL" ++ today ++ pad3 i := by
  intro n
  induction n with
  | zero => intro _; simp [requestTable]
  | succ n ih =>
    intro hn
    have htab := ih (by omega)
    have hstep : requestTable today existing (n + 1)
        = requestTable today existing n
          ++ [generate_request_number today
                (requestTable today existing n)] := rfl
    rw [hstep, htab, generate_at_table today existing n hfresh (by omega)]
    have hconcat : List.range' 1 (n + 1) = List.range' 1 n ++ [n + 1] := by
      simpa [Nat.add_comm] using @List.range'_concat 1 1 n
    rw [hconcat, List.map_append, ← List.append_assoc]
    simp only [List.map_cons, List.map_nil]

/-- **C3.** Starting from a table with no number carrying today's prefix,
the `n` numbers generated sequentially on day `today` (with `n ≤ 999`, the
range on which the counter stays three digits) are exactly
`WL<today>001 … WL<today>` `pad3 n` — counter `001` first, each later
number the predecessor's counter plus one — so they are strictly
increasing and pairwise distinct; and the first generation against a
different day (same date-string length, no stored number carrying the new
prefix) restarts at `001` under the new prefix. -/
theorem C3_request_numbers_date_scoped_sequential (today : String)
    (existing : List String) (n : Nat)
    (hfresh : ∀ s ∈ existing, strStartsWith ("WL" ++ today) s = false)
    (hn : n ≤ 999) :
    ((requestTable today existing n).drop existing.length
        = (List.range' 1 n).map fun i => "WL" ++ today ++ pad3 i)
    ∧ List.Chain' (· < ·) ((requestTable today existing n).drop existing.length)
    ∧ ((requestTable today existing n).drop existing.length).Nodup
    ∧ ∀ today' : String, today'.length = today.length → today' ≠ today →
        (∀ s ∈ existing, strStartsWith ("WL" ++ today') s = false) →
        generate_request_number today' (requestTable today existing n)
          = "WL" ++ today' ++ "001" := by
  have htab := requestTable_eq today existing hfresh n hn
  have hdrop : (requestTable today existing n).drop existing.length
      = (List.range' 1 n).map fun i => "WL" ++ today ++ pad3 i := by
    rw [htab]
    exact List.drop_left ..
  have hchain : List.Chain' (· < ·)
      ((List.range' 1 n).map fun i => "WL" ++ today ++ pad3 i) := by
    rw [List.chain'_map, List.chain'_iff_get]
    intro i hi
    simp only [List.length_range'] at hi
    simp only [List.get_eq_getElem, List.getElem_range', one_mul]
    have h2 : 1 + (i + 1) = (1 + i) + 1 := by omega
    rw [h2]
    exact str_append_lt _ (pad3_lt_succ (1 + i) (by omega))
  refine ⟨hdrop, ?_, ?_, ?_⟩
  · rw [hdrop]
    exact hchain
  · rw [hdrop]
    exact (List.chain'_iff_pairwise.mp hchain).imp fun hab => ne_of_lt hab
  · intro today' hlen hne hfresh'
    have hfilter : (requestTable today existing n).filter
        (fun s => strStartsWith ("WL" ++ today') s) = [] := by
      rw [List.filter_eq_nil_iff]
      intro s hs
      rw [htab] at hs
      rcases List.mem_append.mp hs with h1 | h1
      · simp [hfresh' s h1]
      · rcases List.mem_map.mp h1 with ⟨i, _, rfl⟩
        simp [strStartsWith_ne_day today today' (pad3 i) hlen hne]
    unfold generate_request_number
    rw [hfilter]
    rfl

set_option maxRecDepth 4000 in
/-- Witness for C3: on day `20240105` from an empty table the first two
numbers are `WL20240105001` and `WL20240105002`, in increasing order without
duplicates, and the first generation of day `20240106` against that table
yields `WL20240106001`. -/
theorem C3_request_numbers_date_scoped_sequential_witness :
    ((requestTable "20240105" [] 2).drop ([] : List String).length
        = (List.range' 1 2).map fun i => "WL" ++ "20240105" ++ pad3 i)
    ∧ List.Chain' (· < ·)
        ((requestTable "20240105" [] 2).drop ([] : List String).length)
    ∧ ((requestTable "20240105" [] 2).drop ([] : List String).length).Nodup
    ∧ (∀ today' : String, today'.length = "20240105".length →
        today' ≠ "20240105" →
        (∀ s ∈ ([] : List String), strStartsWith ("WL" ++ today') s = false) →
        generate_request_number today' (requestTable "20240105" [] 2)
          = "WL" ++ today' ++ "001") :=
  C3_request_numbers_date_scoped_sequential "20240105" [] 2
    (by intro s hs; cases hs) (by omega)
